import Mathlib

/-!
Shallow embedding of the email-agent core (mail store, sync service,
listener registry, dispatcher context) of the repository, together with
proofs about the specified behaviour.

Modelling conventions:
* SQLite rows become Lean structures; nullable columns are `Option`;
  machine integers are `Nat` (all values involved are small and
  non-negative); `DATETIME` values produced by `CURRENT_TIMESTAMP` /
  `Date.now()` are a `Nat` tick supplied by the caller.
* The JSON-encoded `labels` column of the `emails` table is modelled as
  the decoded `List String` (with `none` for SQL `NULL`), since
  `JSON.parse (JSON.stringify l) = l`.
* JavaScript truthiness on optional strings (`s || t`) is modelled by
  `jsTruthyStr` / `jsStrOr`: the empty string counts as absent.
* `String.substring(0, n)` is modelled by `jsSubstring`, which keeps the
  first `n` characters (JS counts UTF-16 units; the distinction does not
  matter for any property proved here).
-/

/-- JavaScript truthiness of an optional string: `undefined`, `null` and
`""` are falsy. -/
def jsTruthyStr : Option String → Option String
  | some s => if s = "" then none else some s
  | none => none

/-- The JavaScript expression `a || b || null` on optional strings. -/
def jsStrOr (a b : Option String) : Option String :=
  match jsTruthyStr a with
  | some s => some s
  | none => jsTruthyStr b

/-- The JavaScript expression `n || null` on an optional number: `0` is
falsy and collapses to `null`. -/
def jsNatOrNull : Option Nat → Option Nat
  | some n => if n = 0 then none else some n
  | none => none

/-- The `String.endsWith` test, computed over the character lists (the
core implementation does not reduce inside the kernel). -/
def strEndsWith (s t : String) : Bool := t.data.isSuffixOf s.data

/-- The `String.startsWith` test, computed over the character lists. -/
def strStartsWith (s t : String) : Bool := t.data.isPrefixOf s.data

/-- The JavaScript string method `s.substring(0, n)`. -/
def jsSubstring (s : String) (n : Nat) : String :=
  String.mk (s.data.take n)

/-! ## Mail store rows (`emails`, `attachments`, `emails_fts` tables)

The logical schema is the snake_case one created by
`EmailDatabase.initializeDatabase` plus the `add-imap-uid.sql` migration,
which is the schema `DatabaseManager`'s statements address at run time. -/

/-- A row of the `emails` table as addressed by `DatabaseManager`. -/
structure EmailRow where
  id : Nat
  messageId : String
  imapUid : Option Nat := none
  threadId : Option String := none
  inReplyTo : Option String := none
  emailReferences : Option String := none
  dateSent : String := ""
  dateReceived : Option String := none
  subject : Option String := none
  fromAddress : String := ""
  fromName : Option String := none
  toAddresses : Option String := none
  ccAddresses : Option String := none
  bccAddresses : Option String := none
  replyTo : Option String := none
  bodyText : Option String := none
  bodyHtml : Option String := none
  snippet : Option String := none
  isRead : Bool := false
  isStarred : Bool := false
  isImportant : Bool := false
  isDraft : Bool := false
  isSent : Bool := false
  isTrash : Bool := false
  isSpam : Bool := false
  sizeBytes : Nat := 0
  hasAttachments : Bool := false
  attachmentCount : Nat := 0
  folder : String := "INBOX"
  labels : Option (List String) := none
  rawHeaders : Option String := none
  updatedAt : Nat := 0
  deriving Repr, DecidableEq

/-- A row of the `attachments` table. -/
structure AttachmentRow where
  emailId : Nat
  filename : String
  contentType : Option String := none
  sizeBytes : Nat := 0
  contentId : Option String := none
  isInline : Bool := false
  deriving Repr, DecidableEq

/-- A row of the `emails_fts` full-text virtual table. -/
structure FtsRow where
  messageId : String
  subject : Option String := none
  fromAddress : Option String := none
  fromName : Option String := none
  bodyText : Option String := none
  toAddresses : Option String := none
  ccAddresses : Option String := none
  attachmentNames : Option String := none
  deriving Repr, DecidableEq

/-- State owned by `DatabaseManager`: the three tables plus the
auto-increment counter and the current timestamp tick. -/
structure DmStore where
  emails : List EmailRow := []
  attachments : List AttachmentRow := []
  fts : List FtsRow := []
  nextId : Nat := 1
  now : Nat := 0
  deriving Repr, DecidableEq

/-- The TypeScript `EmailRecord` interface of `database-manager.ts`. -/
structure EmailRecord where
  id : Option Nat := none
  messageId : String
  imapUid : Option Nat := none
  threadId : Option String := none
  inReplyTo : Option String := none
  emailReferences : Option String := none
  dateSent : String := ""
  dateReceived : Option String := none
  subject : Option String := none
  fromAddress : String := ""
  fromName : Option String := none
  toAddresses : Option String := none
  ccAddresses : Option String := none
  bccAddresses : Option String := none
  replyTo : Option String := none
  bodyText : Option String := none
  bodyHtml : Option String := none
  snippet : Option String := none
  isRead : Bool := false
  isStarred : Bool := false
  isImportant : Bool := false
  isDraft : Bool := false
  isSent : Bool := false
  isTrash : Bool := false
  isSpam : Bool := false
  sizeBytes : Nat := 0
  hasAttachments : Bool := false
  attachmentCount : Nat := 0
  folder : String := "INBOX"
  labels : Option (List String) := none
  rawHeaders : Option String := none
  deriving Repr, DecidableEq

/-- The TypeScript `Attachment` interface of `database-manager.ts`. -/
structure AttachmentInput where
  filename : String
  contentType : Option String := none
  sizeBytes : Option Nat := none
  contentId : Option String := none
  isInline : Option Bool := none
  deriving Repr, DecidableEq

/-- The value bound to `$snippet` in `DatabaseManager.upsertEmail`:
`email.snippet || email.bodyText?.substring(0, 200) || null`. -/
def upsertSnippetVal (email : EmailRecord) : Option String :=
  jsStrOr email.snippet (email.bodyText.map (fun t => jsSubstring t 200))

/-- The value bound to `$folder`: `email.folder || "INBOX"`. -/
def upsertFolderVal (email : EmailRecord) : String :=
  if email.folder = "" then "INBOX" else email.folder

/-- Conversion of an `Attachment` argument into an `attachments` row, as
bound by the `insertAttachment` prepared statement of `upsertEmail`. -/
def attachmentRowOf (emailId : Nat) (a : AttachmentInput) : AttachmentRow :=
  { emailId := emailId
    filename := a.filename
    contentType := jsTruthyStr a.contentType
    sizeBytes := a.sizeBytes.getD 0
    contentId := jsTruthyStr a.contentId
    isInline := a.isInline.getD false }

/-- The fresh `emails` row written by the INSERT arm of
`DatabaseManager.upsertEmail`.  The column list of that statement has no
`imap_uid` entry, so the inserted row always has SQL `NULL` there. -/
def upsertInsertRow (email : EmailRecord) (atts : List AttachmentInput)
    (id now : Nat) : EmailRow :=
  { id := id
    messageId := email.messageId
    imapUid := none
    threadId := email.threadId
    inReplyTo := email.inReplyTo
    emailReferences := email.emailReferences
    dateSent := email.dateSent
    dateReceived := some (email.dateReceived.getD (toString now))
    subject := email.subject
    fromName := email.fromName
    fromAddress := email.fromAddress
    toAddresses := email.toAddresses
    ccAddresses := email.ccAddresses
    bccAddresses := email.bccAddresses
    replyTo := email.replyTo
    bodyText := email.bodyText
    bodyHtml := email.bodyHtml
    snippet := upsertSnippetVal email
    isRead := email.isRead
    isStarred := email.isStarred
    isImportant := email.isImportant
    isDraft := email.isDraft
    isSent := email.isSent
    isTrash := email.isTrash
    isSpam := email.isSpam
    sizeBytes := email.sizeBytes
    hasAttachments := decide (atts.length > 0)
    attachmentCount := atts.length
    folder := upsertFolderVal email
    labels := email.labels
    rawHeaders := email.rawHeaders
    updatedAt := now }

/-- The `ON CONFLICT(message_id) DO UPDATE` arm of `upsertEmail`: every
column of the SET list is overwritten from the excluded row and
`updated_at` is touched; `id`, `message_id` and `imap_uid` (absent from
the SET list) keep their stored values. -/
def upsertConflictUpdate (old : EmailRow) (email : EmailRecord)
    (atts : List AttachmentInput) (now : Nat) : EmailRow :=
  { old with
    threadId := email.threadId
    inReplyTo := email.inReplyTo
    emailReferences := email.emailReferences
    dateSent := email.dateSent
    dateReceived := some (email.dateReceived.getD (toString now))
    subject := email.subject
    fromAddress := email.fromAddress
    fromName := email.fromName
    toAddresses := email.toAddresses
    ccAddresses := email.ccAddresses
    bccAddresses := email.bccAddresses
    replyTo := email.replyTo
    bodyText := email.bodyText
    bodyHtml := email.bodyHtml
    snippet := upsertSnippetVal email
    isRead := email.isRead
    isStarred := email.isStarred
    isImportant := email.isImportant
    isDraft := email.isDraft
    isSent := email.isSent
    isTrash := email.isTrash
    isSpam := email.isSpam
    sizeBytes := email.sizeBytes
    hasAttachments := decide (atts.length > 0)
    attachmentCount := atts.length
    folder := upsertFolderVal email
    labels := email.labels
    rawHeaders := email.rawHeaders
    updatedAt := now }

/-- The `emails_fts_insert` trigger row for a freshly inserted email. -/
def ftsInsertRow (row : EmailRow) : FtsRow :=
  { messageId := row.messageId
    subject := row.subject
    fromAddress := some row.fromAddress
    fromName := row.fromName
    bodyText := row.bodyText
    toAddresses := row.toAddresses
    ccAddresses := row.ccAddresses
    attachmentNames := none }

/-- The `emails_fts_update` trigger: resynchronize the text columns of the
FTS row from the NEW email row (the `attachment_names` column is not in
the trigger's SET list). -/
def ftsResync (f : FtsRow) (row : EmailRow) : FtsRow :=
  { f with
    subject := row.subject
    fromAddress := some row.fromAddress
    fromName := row.fromName
    bodyText := row.bodyText
    toAddresses := row.toAddresses
    ccAddresses := row.ccAddresses }

/-- The attachment block at the end of the `upsertEmail` transaction: only
when the new list is non-empty, delete the email's old attachment rows,
insert the new ones, and write the joined filenames into the FTS row. -/
def upsertAttachmentPhase (s : DmStore) (emailId : Nat) (messageId : String)
    (atts : List AttachmentInput) : DmStore :=
  if atts.length > 0 then
    { s with
      attachments :=
        s.attachments.filter (fun a => a.emailId ≠ emailId)
          ++ atts.map (attachmentRowOf emailId)
      fts := s.fts.map (fun f =>
        if f.messageId = messageId then
          { f with
            attachmentNames :=
              some (String.intercalate " " (atts.map (fun a => a.filename))) }
        else f) }
  else s

/-- Translation of `DatabaseManager.upsertEmail`: one transaction running
the INSERT .. ON CONFLICT DO UPDATE .. RETURNING id statement (with its
FTS triggers) followed by the conditional attachment replacement.
Returns the row's surrogate key together with the new store. -/
def upsertEmail (s : DmStore) (email : EmailRecord)
    (atts : List AttachmentInput) : Nat × DmStore :=
  match s.emails.find? (fun row => row.messageId = email.messageId) with
  | some old =>
      let updated := upsertConflictUpdate old email atts s.now
      let s1 : DmStore :=
        { s with
          emails := s.emails.map (fun row =>
            if row.messageId = email.messageId then updated else row)
          fts := s.fts.map (fun f =>
            if f.messageId = email.messageId then ftsResync f updated else f) }
      (old.id, upsertAttachmentPhase s1 old.id email.messageId atts)
  | none =>
      let row := upsertInsertRow email atts s.nextId s.now
      let s1 : DmStore :=
        { s with
          emails := s.emails ++ [row]
          fts := s.fts ++ [ftsInsertRow row]
          nextId := s.nextId + 1 }
      (row.id, upsertAttachmentPhase s1 row.id email.messageId atts)

/-! ## `DatabaseManager.updateEmailFlags` -/

/-- The update object accepted by `updateEmailFlags`. -/
structure FlagUpdates where
  isRead : Option Bool := none
  isStarred : Option Bool := none
  isImportant : Option Bool := none
  labels : Option (List String) := none
  folder : Option String := none
  deriving Repr, DecidableEq

/-- True when at least one SET clause besides `updated_at` would be
generated. -/
def FlagUpdates.hasAny (u : FlagUpdates) : Bool :=
  u.isRead.isSome || u.isStarred.isSome || u.isImportant.isSome
    || u.labels.isSome || u.folder.isSome

/-- Apply the generated SET clauses to one row (the WHERE-matched row):
each provided field is overwritten and `updated_at` is touched. -/
def applyFlagUpdates (u : FlagUpdates) (now : Nat) (row : EmailRow) : EmailRow :=
  { row with
    isRead := u.isRead.getD row.isRead
    isStarred := u.isStarred.getD row.isStarred
    isImportant := u.isImportant.getD row.isImportant
    labels := (match u.labels with
      | some l => some l
      | none => row.labels)
    folder := u.folder.getD row.folder
    updatedAt := now }

/-- Translation of `DatabaseManager.updateEmailFlags`.  When no field is
provided the function returns before preparing the UPDATE ("Only
updated_at would be set, so nothing to update"), so the store — including
`updated_at` — is left untouched.  Otherwise the UPDATE fires, and the
`emails_fts_update` trigger resynchronizes the FTS row. -/
def updateEmailFlags (s : DmStore) (messageId : String) (u : FlagUpdates) :
    DmStore :=
  if u.hasAny then
    let emails1 := s.emails.map (fun row =>
      if row.messageId = messageId then applyFlagUpdates u s.now row else row)
    let fts1 := match emails1.find? (fun row => row.messageId = messageId) with
      | some row => s.fts.map (fun f =>
          if f.messageId = messageId then ftsResync f row else f)
      | none => s.fts
    { s with emails := emails1, fts := fts1 }
  else s

/-! ## Reading back rows: `mapRowToEmailRecord` and `getEmailByMessageId` -/

/-- Translation of `DatabaseManager.mapRowToEmailRecord`.  The source
builds the record literal without an `imapUid` entry (the field list stops
at `rawHeaders`), so the returned record's `imapUid` is always absent even
when the stored row carries a UID. -/
def mapRowToEmailRecord (row : EmailRow) : EmailRecord :=
  { id := some row.id
    messageId := row.messageId
    imapUid := none
    threadId := row.threadId
    inReplyTo := row.inReplyTo
    emailReferences := row.emailReferences
    dateSent := row.dateSent
    dateReceived := row.dateReceived
    subject := row.subject
    fromAddress := row.fromAddress
    fromName := row.fromName
    toAddresses := row.toAddresses
    ccAddresses := row.ccAddresses
    bccAddresses := row.bccAddresses
    replyTo := row.replyTo
    bodyText := row.bodyText
    bodyHtml := row.bodyHtml
    snippet := row.snippet
    isRead := row.isRead
    isStarred := row.isStarred
    isImportant := row.isImportant
    isDraft := row.isDraft
    isSent := row.isSent
    isTrash := row.isTrash
    isSpam := row.isSpam
    sizeBytes := row.sizeBytes
    hasAttachments := row.hasAttachments
    attachmentCount := row.attachmentCount
    folder := row.folder
    labels := some (row.labels.getD [])
    rawHeaders := row.rawHeaders }

/-- Translation of `DatabaseManager.getEmailByMessageId`. -/
def getEmailByMessageId (s : DmStore) (messageId : String) :
    Option EmailRecord :=
  (s.emails.find? (fun row => row.messageId = messageId)).map
    mapRowToEmailRecord

/-! ## Listener context email operations (`ListenersManager.createContext`)

Each of the seven email actions follows the same template in the source:
resolve the message id through `getEmailByMessageId`, throw when the email
or its `imapUid` is missing, await the remote IMAP operation, and only
then apply the local mutation through `updateEmailFlags`.  The remote
operation is outside the program; its outcome is the `remoteOk`
parameter. -/

/-- The errors a context email operation can surface to the handler. -/
inductive ContextError where
  | emailNotFound (messageId : String)
  | emailMissingUid (messageId : String)
  | imapFailure
  deriving Repr, DecidableEq

/-- The seven email actions exposed on the listener context. -/
inductive EmailAction where
  | archive
  | star
  | unstar
  | markRead
  | markUnread
  | addLabel (label : String)
  | removeLabel (label : String)
  deriving Repr, DecidableEq

/-- The `updateEmailFlags` argument each action passes after the IMAP call
succeeds.  `addLabel` first consults the resolved record's labels and
skips the local write when the label is already present
(`currentLabels.includes(label)`); `removeLabel` filters the label out. -/
def contextLocalUpdate (act : EmailAction) (email : EmailRecord) :
    Option FlagUpdates :=
  match act with
  | .archive => some { folder := some "[Gmail]/All Mail" }
  | .star => some { isStarred := some true }
  | .unstar => some { isStarred := some false }
  | .markRead => some { isRead := some true }
  | .markUnread => some { isRead := some false }
  | .addLabel l =>
      let currentLabels := email.labels.getD []
      if currentLabels.contains l then none
      else some { labels := some (currentLabels ++ [l]) }
  | .removeLabel l =>
      let currentLabels := email.labels.getD []
      some { labels := some (currentLabels.filter (fun x => x ≠ l)) }

/-- Translation of the context email operations of
`ListenersManager.createContext` (`archiveEmail`, `starEmail`,
`unstarEmail`, `markAsRead`, `markAsUnread`, `addLabel`, `removeLabel`).
`remoteOk` is the outcome of the awaited `ImapManager` call. -/
def runContextAction (remoteOk : Bool) (s : DmStore) (act : EmailAction)
    (emailId : String) : Except ContextError DmStore :=
  match getEmailByMessageId s emailId with
  | none => .error (.emailNotFound emailId)
  | some email =>
      match email.imapUid with
      | none => .error (.emailMissingUid emailId)
      | some _uid =>
          if remoteOk then
            match contextLocalUpdate act email with
            | some u => .ok (updateEmailFlags s emailId u)
            | none => .ok s
          else .error .imapFailure

/-! ## Listener registry and dispatcher (`ListenersManager`) -/

/-- The event kinds a listener can subscribe to. -/
inductive EventType where
  | email_received
  | email_sent
  | email_starred
  | email_archived
  | email_labeled
  | scheduled_time
  deriving Repr, DecidableEq

/-- The `config` export of a listener module. -/
structure ListenerConfig where
  id : String
  name : String
  description : Option String := none
  enabled : Bool
  event : EventType
  deriving Repr, DecidableEq

/-- What a listener file's dynamic import yields: possibly a `config`
export and possibly a `handler` export.  A file whose import itself throws
is represented by `none` at the `ListenerFile` level. -/
structure ModuleExports where
  config : Option ListenerConfig := none
  hasHandler : Bool := false
  deriving Repr, DecidableEq

/-- A directory entry of the listeners directory. -/
structure ListenerFile where
  name : String
  exports : Option ModuleExports := none
  deriving Repr, DecidableEq

/-- The registry map `Map<string, ListenerModule>` keyed by `config.id`,
modelled as an insertion-ordered association list of configs. -/
def Registry := List (String × ListenerConfig)

/-- JavaScript `Map.set`: overwrite in place when the key exists,
otherwise append. -/
def mapSet (m : List (String × ListenerConfig)) (k : String)
    (v : ListenerConfig) : List (String × ListenerConfig) :=
  if m.any (fun p => p.1 = k) then
    m.map (fun p => if p.1 = k then (k, v) else p)
  else m ++ [(k, v)]

/-- The filename filter of `loadAllListeners`: only `.ts` files not
starting with `_` or `.` are considered. -/
def isListenerFileName (name : String) : Bool :=
  strEndsWith name ".ts" && !strStartsWith name "_" && !strStartsWith name "."

/-- Translation of `ListenersManager.loadListener`: an import failure or a
module missing `config` or `handler` is logged and registers nothing; a
disabled config is skipped; an enabled config is stored under its id. -/
def loadListener (reg : List (String × ListenerConfig)) (f : ListenerFile) :
    List (String × ListenerConfig) :=
  match f.exports with
  | none => reg
  | some ex =>
      match ex.config with
      | none => reg
      | some cfg =>
          if !ex.hasHandler then reg
          else if cfg.enabled then mapSet reg cfg.id cfg
          else reg

/-- One iteration of the directory scan of `loadAllListeners`: apply the
filename filter, then `loadListener`. -/
def loadAllStep (reg : List (String × ListenerConfig)) (f : ListenerFile) :
    List (String × ListenerConfig) :=
  if isListenerFileName f.name then loadListener reg f else reg

/-- Translation of `ListenersManager.loadAllListeners`: clear the map and
load every file of the directory, one by one. -/
def loadAllListeners (files : List ListenerFile) :
    List (String × ListenerConfig) :=
  files.foldl loadAllStep []

/-- The config of a file that would end up in the active set: name filter
passed, import succeeded, both exports present, `enabled` true. -/
def activeConfig? (f : ListenerFile) : Option ListenerConfig :=
  if isListenerFileName f.name then
    match f.exports with
    | none => none
    | some ex =>
        match ex.config with
        | none => none
        | some cfg =>
            if ex.hasHandler && cfg.enabled then some cfg else none
  else none

/-- Payload handed to a listener handler. -/
inductive EventPayload where
  | email (record : EmailRecord)
  | labeled (record : EmailRecord) (label : String)
  | scheduled (timestamp : String)
  deriving Repr, DecidableEq

/-- A loaded listener module: its config together with its handler.  A
handler is arbitrary user code acting on the store through the context; it
returns the resulting store and, when it threw, the error message. -/
structure ListenerModule where
  config : ListenerConfig
  handler : EventPayload → DmStore → DmStore × Option String

/-- Result of a dispatch round: the final store, the ids of the handlers
that were invoked (in order), and the ids whose error was caught and
logged. -/
structure DispatchResult where
  store : DmStore
  invoked : List String
  errorsLogged : List String

/-- One iteration of the dispatch loop of `ListenersManager.checkEvent`:
invoke the handler inside try/catch; an error is logged and the loop
moves on, so the result is a plain value either way. -/
def dispatchStep (data : EventPayload) (acc : DispatchResult)
    (l : ListenerModule) : DispatchResult :=
  let r := l.handler data acc.store
  { store := r.1
    invoked := acc.invoked ++ [l.config.id]
    errorsLogged := acc.errorsLogged ++
      (match r.2 with
       | some _ => [l.config.id]
       | none => []) }

/-- Translation of `ListenersManager.checkEvent`: filter the registry by
event kind, then invoke every matching handler in order; a handler error
is caught, logged, and the loop continues with the next handler. -/
def checkEvent (listeners : List ListenerModule) (event : EventType)
    (data : EventPayload) (s : DmStore) : DispatchResult :=
  (listeners.filter (fun l => l.config.event == event)).foldl
    (dispatchStep data)
    { store := s, invoked := [], errorsLogged := [] }

/-! ## IMAP search criteria (`ImapManager.buildImapSearchCriteria`) -/

/-- A node of the heterogeneous JavaScript array handed to
`node-imap`'s `search`: strings, numbers, `Date` objects (a tick), and
nested arrays. -/
inductive Sexp where
  | str (s : String)
  | num (n : Nat)
  | date (d : Nat)
  | list (xs : List Sexp)
  deriving Repr

/-- The TypeScript `string | string[]` shape of the `from` / `to`
criteria fields. -/
inductive StrOrList where
  | one (s : String)
  | many (xs : List String)
  deriving Repr, DecidableEq

/-- The `SearchCriteria` interface of `database-manager.ts` (the part
consumed by `buildImapSearchCriteria`; `from` and `to` are named
`fromAddr` / `toAddr` because both are Lean keywords). -/
structure SearchCriteria where
  query : Option String := none
  fromAddr : Option StrOrList := none
  toAddr : Option StrOrList := none
  subject : Option String := none
  dateRange : Option (Nat × Nat) := none
  hasAttachments : Option Bool := none
  isUnread : Option Bool := none
  isStarred : Option Bool := none
  folder : Option String := none
  folders : Option (List String) := none
  labels : Option (List String) := none
  threadId : Option String := none
  limit : Option Nat := none
  offset : Option Nat := none
  minSize : Option Nat := none
  maxSize : Option Nat := none
  gmailQuery : Option String := none
  deriving Repr, DecidableEq

/-- JavaScript truthiness of an optional string criteria field. -/
def optStrTruthy : Option String → Bool
  | some s => decide (s ≠ "")
  | none => false

/-- JavaScript truthiness of a `string | string[]` field: `""` is falsy,
any array (even empty) is truthy. -/
def strOrListTruthy : Option StrOrList → Bool
  | some (.one s) => decide (s ≠ "")
  | some (.many _) => true
  | none => false

/-- The JavaScript coercion `Array.isArray(x) ? x : [x]`. -/
def StrOrList.toList : StrOrList → List String
  | .one s => [s]
  | .many xs => xs

/-- JavaScript truthiness of an optional number: `0` is falsy. -/
def optNatTruthy : Option Nat → Bool
  | some n => decide (n ≠ 0)
  | none => false

/-- The address-field expansion of `buildImapSearchCriteria`: a single
address becomes `[key, addr]`, several become `['OR', [key, a1], ...]`. -/
def addrCriteria (key : String) (addrs : List String) : Sexp :=
  if addrs.length = 1 then
    Sexp.list [Sexp.str key, Sexp.str (addrs.headD "")]
  else
    Sexp.list (Sexp.str "OR" :: addrs.map (fun a =>
      Sexp.list [Sexp.str key, Sexp.str a]))

/-- The non-Gmail arm of `buildImapSearchCriteria`: compose the criteria
pushed for each truthy field, in source order, defaulting to `ALL`. -/
def buildImapSearchFields (c : SearchCriteria) : List Sexp :=
  let acc : List Sexp := []
  let acc := acc ++
    (match c.query with
     | some q =>
         if q = "" then []
         else [Sexp.list [Sexp.str "OR",
                Sexp.list [Sexp.str "SUBJECT", Sexp.str q],
                Sexp.list [Sexp.str "BODY", Sexp.str q]]]
     | none => [])
  let acc := acc ++
    (if strOrListTruthy c.fromAddr then
      [addrCriteria "FROM" ((c.fromAddr.getD (.many [])).toList)]
     else [])
  let acc := acc ++
    (if strOrListTruthy c.toAddr then
      [addrCriteria "TO" ((c.toAddr.getD (.many [])).toList)]
     else [])
  let acc := acc ++
    (match c.subject with
     | some s => if s = "" then [] else [Sexp.list [Sexp.str "SUBJECT", Sexp.str s]]
     | none => [])
  let acc := acc ++
    (match c.dateRange with
     | some (startD, endD) =>
         [Sexp.list [Sexp.str "SINCE", Sexp.date startD],
          Sexp.list [Sexp.str "BEFORE", Sexp.date endD]]
     | none => [])
  let acc := acc ++
    (if c.hasAttachments = some true then
      [Sexp.list [Sexp.str "KEYWORD", Sexp.str "has:attachment"]]
     else [])
  let acc := acc ++
    (match c.isUnread with
     | some true => [Sexp.str "UNSEEN"]
     | some false => [Sexp.str "SEEN"]
     | none => [])
  let acc := acc ++
    (if optNatTruthy c.minSize then
      [Sexp.list [Sexp.str "LARGER", Sexp.num (c.minSize.getD 0)]]
     else [])
  let acc := acc ++
    (if optNatTruthy c.maxSize then
      [Sexp.list [Sexp.str "SMALLER", Sexp.num (c.maxSize.getD 0)]]
     else [])
  if acc.isEmpty then [Sexp.str "ALL"] else acc

/-- Translation of `ImapManager.buildImapSearchCriteria`: when
`criteria.gmailQuery` is truthy (present and non-empty) the function
returns `[['X-GM-RAW', gmailQuery]]` immediately, ignoring every other
field; otherwise it composes the remaining fields. -/
def buildImapSearchCriteria (c : SearchCriteria) : List Sexp :=
  match c.gmailQuery with
  | some q =>
      if q = "" then buildImapSearchFields c
      else [Sexp.list [Sexp.str "X-GM-RAW", Sexp.str q]]
  | none => buildImapSearchFields c

/-! ## The sync-side store (`EmailDatabase` of `email-db.ts`)

`EmailSyncService` writes through `EmailDatabase.insertEmail`, whose
`emails` schema keeps recipients in a separate table (no
`to_addresses`/`cc_addresses`/`bcc_addresses` columns) and includes
`imap_uid`. -/

/-- A row of the sync-side `emails` table. -/
structure SyncEmailRow where
  id : Nat
  messageId : String
  imapUid : Option Nat := none
  threadId : Option String := none
  inReplyTo : Option String := none
  emailReferences : Option String := none
  dateSent : String := ""
  dateReceived : String := ""
  subject : Option String := none
  fromAddress : String := ""
  fromName : Option String := none
  replyTo : Option String := none
  bodyText : Option String := none
  bodyHtml : Option String := none
  snippet : Option String := none
  isRead : Bool := false
  isStarred : Bool := false
  isImportant : Bool := false
  isDraft : Bool := false
  isSent : Bool := false
  isTrash : Bool := false
  isSpam : Bool := false
  sizeBytes : Nat := 0
  hasAttachments : Bool := false
  attachmentCount : Nat := 0
  folder : String := "INBOX"
  labels : Option String := none
  rawHeaders : Option String := none
  deriving Repr, DecidableEq

/-- A row of the `recipients` table. -/
structure RecipientRow where
  emailId : Nat
  rtype : String
  address : String
  name : Option String := none
  deriving Repr, DecidableEq

/-- A recipient before insertion (the sync service builds these with a
placeholder email id that `insertEmail` replaces). -/
structure RecipientInput where
  rtype : String
  address : String
  name : Option String := none
  deriving Repr, DecidableEq

/-- The sync-side database state. -/
structure EmailDb where
  emails : List SyncEmailRow := []
  recipients : List RecipientRow := []
  attachments : List AttachmentRow := []
  nextId : Nat := 1
  deriving Repr, DecidableEq

/-- Membership test used both by the sync service's
`SELECT id FROM emails WHERE message_id = ?` existence probe and by the
UNIQUE(message_id) constraint. -/
def EmailDb.containsMessageId (db : EmailDb) (mid : String) : Bool :=
  db.emails.any (fun r => r.messageId = mid)

/-- The snake_case `EmailRecord` interface of `email-db.ts` (the fields
the sync service populates; omitted optional fields are `none`). -/
structure SyncRecord where
  messageId : String
  imapUid : Option Nat := none
  threadId : Option String := none
  inReplyTo : Option String := none
  emailReferences : Option String := none
  dateSent : String := ""
  dateReceived : Option String := none
  subject : Option String := none
  fromAddress : String := ""
  fromName : Option String := none
  replyTo : Option String := none
  bodyText : Option String := none
  bodyHtml : Option String := none
  snippet : Option String := none
  isRead : Bool := false
  folder : String := "INBOX"
  hasAttachments : Bool := false
  attachmentCount : Nat := 0
  labels : Option String := none
  rawHeaders : Option String := none
  deriving Repr, DecidableEq

/-- A database-level failure of `insertEmail` (the UNIQUE(message_id)
constraint rolls the transaction back). -/
inductive DbError where
  | uniqueViolation (messageId : String)
  deriving Repr, DecidableEq

/-- Translation of `EmailDatabase.insertEmail`: one transaction inserting
the email row, its recipients and its attachments.  A duplicate
message-id violates the UNIQUE constraint and fails the whole
transaction. -/
def insertEmail (db : EmailDb) (email : SyncRecord)
    (recipients : List RecipientInput) (atts : List AttachmentInput)
    (now : Nat) : Except DbError (Nat × EmailDb) :=
  if db.containsMessageId email.messageId then
    .error (.uniqueViolation email.messageId)
  else
    let emailId := db.nextId
    let row : SyncEmailRow :=
      { id := emailId
        messageId := email.messageId
        imapUid := jsNatOrNull email.imapUid
        threadId := email.threadId
        inReplyTo := email.inReplyTo
        emailReferences := email.emailReferences
        dateSent := email.dateSent
        dateReceived := email.dateReceived.getD (toString now)
        subject := email.subject
        fromAddress := email.fromAddress
        fromName := email.fromName
        replyTo := email.replyTo
        bodyText := email.bodyText
        bodyHtml := email.bodyHtml
        snippet := jsStrOr email.snippet
          (email.bodyText.map (fun t => jsSubstring t 200))
        isRead := email.isRead
        sizeBytes := 0
        hasAttachments := decide (atts.length > 0)
        attachmentCount := atts.length
        folder := if email.folder = "" then "INBOX" else email.folder
        labels := jsTruthyStr email.labels
        rawHeaders := email.rawHeaders }
    .ok (emailId,
      { db with
        emails := db.emails ++ [row]
        recipients := db.recipients ++ recipients.map (fun r =>
          { emailId := emailId, rtype := r.rtype, address := r.address
            name := r.name })
        attachments := db.attachments ++ atts.map (attachmentRowOf emailId)
        nextId := db.nextId + 1 })

/-! ## The sync service (`EmailSyncService.syncEmails`) -/

/-- An address as surfaced by `mailparser` (`addr.address` / `addr.name`
inside `parsed.to.value` etc.). -/
structure Addr where
  address : Option String := none
  name : Option String := none
  deriving Repr, DecidableEq

/-- A parsed attachment as surfaced by `mailparser`. -/
structure RawAttachment where
  filename : Option String := none
  contentType : Option String := none
  size : Option Nat := none
  contentId : Option String := none
  contentDisposition : Option String := none
  deriving Repr, DecidableEq

/-- The parsed message returned by `EmailSearcher.fetchEmail`
(`mailparser`'s `simpleParser` output, restricted to the fields the sync
service reads).  `references` is `string | string[]`; `headersJson`
stands for `JSON.stringify(rawEmail.headers || {})`. -/
structure RawEmail where
  messageId : Option String := none
  threadId : Option String := none
  inReplyTo : Option String := none
  references : Option StrOrList := none
  date : Option String := none
  subject : Option String := none
  fromText : Option String := none
  replyToText : Option String := none
  text : Option String := none
  html : Option String := none
  toAddrs : List Addr := []
  ccAddrs : List Addr := []
  bccAddrs : List Addr := []
  attachments : List RawAttachment := []
  headersJson : String := ""
  deriving Repr, DecidableEq

/-- The `SyncOptions` interface of `email-sync.ts`. -/
structure SyncOptions where
  folder : Option String := none
  since : Option Nat := none
  before : Option Nat := none
  limit : Option Nat := none
  markAsRead : Option Bool := none
  fromAddr : Option String := none
  toAddr : Option String := none
  subject : Option String := none
  hasAttachments : Option Bool := none
  unreadOnly : Option Bool := none
  starredOnly : Option Bool := none
  searchText : Option String := none
  excludeFolders : Option (List String) := none
  sizeMin : Option Nat := none
  sizeMax : Option Nat := none
  deriving Repr, DecidableEq

/-- Translation of `EmailSyncService.extractRecipients` (the
`mailparser` branch: each address object of `to`/`cc`/`bcc` yields a
recipient with lowercased address, `""` when absent). -/
def extractRecipients (r : RawEmail) : List RecipientInput :=
  r.toAddrs.map (fun a =>
    { rtype := "to", address := (a.address.map String.toLower).getD ""
      name := a.name })
  ++ r.ccAddrs.map (fun a =>
    { rtype := "cc", address := (a.address.map String.toLower).getD ""
      name := a.name })
  ++ r.bccAddrs.map (fun a =>
    { rtype := "bcc", address := (a.address.map String.toLower).getD ""
      name := a.name })

/-- Translation of `EmailSyncService.extractAttachments`. -/
def extractAttachments (r : RawEmail) : List AttachmentInput :=
  r.attachments.map (fun att =>
    { filename := att.filename.getD "unnamed"
      contentType := att.contentType
      sizeBytes := some (att.size.getD 0)
      contentId := att.contentId
      isInline := some (att.contentDisposition = some "inline") })

/-- The environment of one sync run: the UID list the IMAP search
returned, the per-UID fetch outcome (`none` is a fetch failure), and the
address parser (`parseEmailAddress` is a regex routine whose details no
claim depends on, so it is carried as an environment function). -/
structure SyncEnv where
  uids : List Nat
  fetch : Nat → Option RawEmail
  parseAddr : String → List Addr

/-- The first thread correlator of `syncEmails`:
`rawEmail.threadId || (references string ? split(" ")[0] : references[0])`. -/
def syncThreadId (r : RawEmail) : Option String :=
  match jsTruthyStr r.threadId with
  | some t => some t
  | none =>
      match r.references with
      | some (.one s) => (s.splitOn " ").head?
      | some (.many xs) => xs.head?
      | none => none

/-- The denormalized reference chain:
`Array.isArray(references) ? references.join(" ") : references`. -/
def syncReferences (r : RawEmail) : Option String :=
  match r.references with
  | some (.one s) => some s
  | some (.many xs) => some (String.intercalate " " xs)
  | none => none

/-- The email record `syncEmails` builds for one fetched message.  A
missing message-id falls back to the synthetic `` `${uid}-${Date.now()}`
`` id. -/
def buildSyncRecord (env : SyncEnv) (opts : SyncOptions) (uid : Nat)
    (r : RawEmail) (now : Nat) : SyncRecord :=
  let fromParsed := env.parseAddr (r.fromText.getD "")
  { messageId := r.messageId.getD (toString uid ++ "-" ++ toString now)
    imapUid := some uid
    threadId := syncThreadId r
    inReplyTo := r.inReplyTo
    emailReferences := syncReferences r
    dateSent := r.date.getD (toString now)
    subject := r.subject
    fromAddress := (jsStrOr (fromParsed.head?.map (fun a => a.address.getD ""))
      (some "unknown@unknown.com")).getD "unknown@unknown.com"
    fromName := fromParsed.head?.bind (fun a => a.name)
    replyTo := r.replyToText
    bodyText := r.text
    bodyHtml := r.html
    snippet := r.text.map (fun t => jsSubstring t 200)
    isRead := (opts.markAsRead.getD false)
    folder := opts.folder.getD "INBOX"
    hasAttachments := decide (r.attachments.length > 0)
    attachmentCount := r.attachments.length
    rawHeaders := some r.headersJson }

/-- Per-run counters of `syncEmails`. -/
structure SyncStats where
  synced : Nat := 0
  skipped : Nat := 0
  errors : Nat := 0
  deriving Repr, DecidableEq

/-- The evolving state of one sync run: the database, the counters, and
the message ids dispatched as `email_received` events (in order). -/
structure SyncRunState where
  db : EmailDb
  stats : SyncStats := {}
  events : List String := []
  now : Nat := 0
  deriving Repr

/-- The post-fetch attachment filter of the sync loop: skip when
`options.hasAttachments` is set and disagrees with the parsed message. -/
def syncFilteredOut (opts : SyncOptions) (raw : RawEmail) : Bool :=
  match opts.hasAttachments with
  | some want => want != decide (raw.attachments.length > 0)
  | none => false

/-- The body of the per-UID loop of `EmailSyncService.syncEmails`:
fetch; skip when the message-id is already stored; apply the post-fetch
attachment filter; insert and dispatch `email_received`.  Any failure
inside the iteration (fetch or insert) is caught and counted in
`errors`. -/
def syncStep (env : SyncEnv) (opts : SyncOptions) (st : SyncRunState)
    (uid : Nat) : SyncRunState :=
  match env.fetch uid with
  | none => { st with stats := { st.stats with errors := st.stats.errors + 1 } }
  | some raw =>
      let alreadyStored := match raw.messageId with
        | some mid => st.db.containsMessageId mid
        | none => false
      if alreadyStored then
        { st with stats := { st.stats with skipped := st.stats.skipped + 1 } }
      else
        if syncFilteredOut opts raw then
          { st with stats := { st.stats with skipped := st.stats.skipped + 1 } }
        else
          let record := buildSyncRecord env opts uid raw st.now
          match insertEmail st.db record (extractRecipients raw)
              (extractAttachments raw) st.now with
          | .ok (_, db1) =>
              { st with
                db := db1
                stats := { st.stats with synced := st.stats.synced + 1 }
                events := st.events ++ [record.messageId] }
          | .error _ =>
              { st with stats := { st.stats with errors := st.stats.errors + 1 } }

/-- The UID prefix a run processes: `uids.slice(0, options.limit ||
uids.length)` — note that an explicit limit of `0` is falsy in
JavaScript and therefore behaves like an absent limit. -/
def syncUidsToProcess (env : SyncEnv) (opts : SyncOptions) : List Nat :=
  let limit := match opts.limit with
    | some n => if n = 0 then env.uids.length else n
    | none => env.uids.length
  env.uids.take limit

/-- Translation of `EmailSyncService.syncEmails` for a connected
searcher: iterate the per-message loop over the limited UID list,
returning the counters, the final database and the dispatched
`email_received` message ids. -/
def syncEmails (env : SyncEnv) (opts : SyncOptions) (db : EmailDb)
    (now : Nat) : SyncStats × EmailDb × List String :=
  let final := (syncUidsToProcess env opts).foldl (syncStep env opts)
    { db := db, stats := {}, events := [], now := now }
  (final.stats, final.db, final.events)

/-! ## Context email operations always fail (claims C1, C10)

`DatabaseManager.mapRowToEmailRecord` drops the `imap_uid` column, so the
record `getEmailByMessageId` hands to the context operations never
carries a UID and the `!email.imapUid` guard throws unconditionally. -/

/-- A store holding one synced email whose stored row does carry an IMAP
UID. -/
def dmStoreWithUid : DmStore :=
  { emails := [{ id := 1, messageId := "m1", imapUid := some 42
                 folder := "INBOX", labels := some [] }]
    fts := [{ messageId := "m1" }]
    nextId := 2
    now := 7 }

/-- A store holding one synced email with a UID and an empty label list. -/
def dmStoreNoLabel : DmStore :=
  { emails := [{ id := 1, messageId := "m1", imapUid := some 42
                 labels := some [] }]
    nextId := 2
    now := 3 }

/-! ## Gmail query precedence (claim C4) -/

/-- Criteria carrying an empty `gmailQuery` alongside a subject filter:
the JavaScript truthiness test `if (criteria.gmailQuery)` rejects the
empty string, so the other fields are not bypassed. -/
def criteriaEmptyGmail : SearchCriteria :=
  { gmailQuery := some "", subject := some "hello" }

/-- Fully-populated criteria whose `gmailQuery` must win. -/
def criteriaFullGmail : SearchCriteria :=
  { query := some "urgent"
    fromAddr := some (.one "boss@")
    toAddr := some (.many ["a@x", "b@y"])
    subject := some "status"
    dateRange := some (100, 200)
    hasAttachments := some true
    isUnread := some false
    minSize := some 10
    maxSize := some 99
    gmailQuery := some "is:unread from:me" }

/-- One-message environment for the limit-zero boundary. -/
def envOneMail : SyncEnv :=
  { uids := [7]
    fetch := fun _ => some { messageId := some "m7", text := some "body" }
    parseAddr := fun _ => [] }

/-! ## Flag updates frame property (claim C8) -/

/-- Store for exercising `updateEmailFlags`: one row last updated at tick
0, current tick 5. -/
def dmStoreForFlags : DmStore :=
  { emails := [{ id := 1, messageId := "m1", subject := some "s"
                 updatedAt := 0 }]
    fts := [{ messageId := "m1", subject := some "s" }]
    nextId := 2
    now := 5 }

/-- The stored row used in the upsert scenarios. -/
def emailRowM1 : EmailRow :=
  { id := 1, messageId := "m1", subject := some "v1" }

/-- Store with one email (id 1) that owns one attachment row. -/
def dmStoreWithAttachment : DmStore :=
  { emails := [emailRowM1]
    attachments := [{ emailId := 1, filename := "old.pdf" }]
    fts := [{ messageId := "m1", subject := some "v1" }]
    nextId := 2
    now := 9 }

/-- The re-ingested record for the same message id. -/
def recordM1v2 : EmailRecord :=
  { messageId := "m1", subject := some "v2", bodyText := some "second" }

/-- A replacement attachment list for the witness. -/
def attachmentNew : AttachmentInput :=
  { filename := "new.xlsx", sizeBytes := some 10 }

/-- A directory mixing one broken import, one config-less module, one
disabled module, ignored filenames, and two valid enabled listeners. -/
def listenerDirMixed : List ListenerFile :=
  [{ name := "alpha.ts"
     exports := some { config := some { id := "alpha", name := "Alpha"
                                        enabled := true
                                        event := .email_received }
                       hasHandler := true } },
   { name := "_helper.ts"
     exports := some { config := some { id := "helper", name := "Helper"
                                        enabled := true
                                        event := .email_received }
                       hasHandler := true } },
   { name := ".hidden.ts"
     exports := some { config := some { id := "hidden", name := "Hidden"
                                        enabled := true
                                        event := .email_received }
                       hasHandler := true } },
   { name := "notes.txt"
     exports := some { config := some { id := "notes", name := "Notes"
                                        enabled := true
                                        event := .email_received }
                       hasHandler := true } },
   { name := "broken.ts", exports := none },
   { name := "no-handler.ts"
     exports := some { config := some { id := "nohandler", name := "NoH"
                                        enabled := true
                                        event := .email_received }
                       hasHandler := false } },
   { name := "disabled.ts"
     exports := some { config := some { id := "disabled", name := "Dis"
                                        enabled := false
                                        event := .email_received }
                       hasHandler := true } },
   { name := "beta.ts"
     exports := some { config := some { id := "beta", name := "Beta"
                                        enabled := true
                                        event := .email_sent }
                       hasHandler := true } }]

/-- Two qualifying files that share one config id. -/
def listenerDirDupIds : List ListenerFile :=
  [{ name := "a.ts"
     exports := some { config := some { id := "x", name := "A"
                                        enabled := true
                                        event := .email_received }
                       hasHandler := true } },
   { name := "b.ts"
     exports := some { config := some { id := "x", name := "B"
                                        enabled := true
                                        event := .email_received }
                       hasHandler := true } }]

/-- A UID is quiet for a database when processing it cannot change the
database: its fetched message carries a message-id that is already stored
or it is rejected by the attachment filter (a failed fetch only counts an
error). -/
def uidQuiet (env : SyncEnv) (opts : SyncOptions) (db : EmailDb)
    (uid : Nat) : Prop :=
  ∀ raw, env.fetch uid = some raw →
    ∃ m, raw.messageId = some m ∧
      (db.containsMessageId m = true ∨ syncFilteredOut opts raw = true)

/-- A server with one message that lacks a Message-Id header. -/
def envNoMessageId : SyncEnv :=
  { uids := [1]
    fetch := fun _ => some { text := some "hello" }
    parseAddr := fun _ => [] }

/-- A server with two well-formed messages. -/
def envTwoMails : SyncEnv :=
  { uids := [1, 2]
    fetch := fun uid =>
      if uid = 1 then some { messageId := some "a@x", text := some "first" }
      else some { messageId := some "b@x", text := some "second" }
    parseAddr := fun _ => [] }

/-- A 201-character snippet handed directly to the upsert path. -/
def longSnippet : String := String.mk (List.replicate 201 'a')

/-! ## Theorems -/

theorem jsSubstring_length_le (s : String) (n : Nat) :
    (jsSubstring s n).length ≤ n := by
  have h : (jsSubstring s n).length = (s.data.take n).length := rfl
  rw [h, List.length_take]
  exact min_le_left _ _

/-! ## Dispatcher results (claim C3) -/

theorem dispatch_foldl_invoked (data : EventPayload)
    (ms : List ListenerModule) :
    ∀ acc : DispatchResult,
      (ms.foldl (dispatchStep data) acc).invoked =
        acc.invoked ++ ms.map (fun l => l.config.id) := by
  induction ms with
  | nil => intro acc; simp
  | cons m rest ih =>
      intro acc
      rw [List.foldl_cons, ih]
      simp [dispatchStep]

/-- C3: for every event kind and payload, `checkEvent` returns an
ordinary result (it never raises), and the handlers it invokes — whatever
each handler does to the store and whether or not it throws — are exactly
the handlers of the registered modules matching the event kind, in
order.  A throwing handler is merely logged, so every remaining matching
handler is still invoked. -/
theorem checkEvent_never_raises_and_invokes_all_matching
    (listeners : List ListenerModule) (event : EventType)
    (data : EventPayload) (s : DmStore) :
    (checkEvent listeners event data s).invoked =
      (listeners.filter (fun l => l.config.event == event)).map
        (fun l => l.config.id) := by
  unfold checkEvent
  rw [dispatch_foldl_invoked]
  simp

/-- C1: every context email operation (archive, star, unstar, mark
read/unread, add/remove label) fails for every store, message id and
remote outcome — the error is surfaced and the store is never mutated —
because the record resolved through `getEmailByMessageId` never exposes
the stored IMAP UID.  In particular, on a store whose row for `"m1"`
does have UID 42, `starEmail` still throws `Email missing IMAP UID`
instead of performing the remote and local updates the claim describes. -/
theorem context_ops_always_error :
    (∀ (remoteOk : Bool) (s : DmStore) (act : EmailAction) (emailId : String),
      ∃ e, runContextAction remoteOk s act emailId = Except.error e) ∧
    (∃ row ∈ dmStoreWithUid.emails,
      row.messageId = "m1" ∧ row.imapUid = some 42) ∧
    runContextAction true dmStoreWithUid .star "m1" =
      Except.error (.emailMissingUid "m1") := by
  refine ⟨?_, ?_, ?_⟩
  · intro remoteOk s act emailId
    cases h : s.emails.find? (fun row => row.messageId = emailId) with
    | none =>
        exact ⟨ContextError.emailNotFound emailId,
          by simp [runContextAction, getEmailByMessageId, h]⟩
    | some row =>
        exact ⟨ContextError.emailMissingUid emailId,
          by simp [runContextAction, getEmailByMessageId, h, mapRowToEmailRecord]⟩
  · exact ⟨dmStoreWithUid.emails.head (by decide), by decide, by decide⟩
  · rfl

/-- C10: the local-idempotence guard does exist
(`currentLabels.includes(label)` suppresses the `updateEmailFlags` call),
but the claimed consequence fails on the code: every `addLabel` call
throws at the UID check before reaching the label logic — even on a
store whose row has a UID — so after any number of calls the stored
labels never come to contain the label at all (count 0, not exactly
once). -/
theorem addLabel_local_idempotence_unreachable :
    (∀ (email : EmailRecord) (l : String),
        (email.labels.getD []).contains l = true →
        contextLocalUpdate (.addLabel l) email = none) ∧
    (∀ (remoteOk : Bool) (s : DmStore) (l emailId : String),
        ∃ e, runContextAction remoteOk s (.addLabel l) emailId =
          Except.error e) ∧
    (runContextAction true dmStoreNoLabel (.addLabel "work") "m1" =
        Except.error (.emailMissingUid "m1") ∧
      ∀ row ∈ dmStoreNoLabel.emails, (row.labels.getD []).count "work" = 0) := by
  refine ⟨?_, ?_, rfl, by decide⟩
  · intro email l h
    have h2 : l ∈ email.labels.getD [] := by simpa using h
    simp [contextLocalUpdate, h2]
  · intro remoteOk s l emailId
    cases h : s.emails.find? (fun row => row.messageId = emailId) with
    | none =>
        exact ⟨ContextError.emailNotFound emailId,
          by simp [runContextAction, getEmailByMessageId, h]⟩
    | some row =>
        exact ⟨ContextError.emailMissingUid emailId,
          by simp [runContextAction, getEmailByMessageId, h, mapRowToEmailRecord]⟩

/-- Witness for the hypothesis-bearing part of the previous theorem: a
record already labelled `"work"` makes `addLabel` skip the local write. -/
theorem addLabel_local_idempotence_unreachable_witness :
    (({ messageId := "m1", labels := some ["work"]} :
        EmailRecord).labels.getD []).contains "work" = true ∧
    contextLocalUpdate (.addLabel "work")
      { messageId := "m1", labels := some ["work"] } = none :=
  ⟨by decide,
    addLabel_local_idempotence_unreachable.1
      { messageId := "m1", labels := some ["work"] } "work" (by decide)⟩

/-- C4 counterexample: with `gmailQuery` present but empty, the built
expression is the subject predicate, not `[["X-GM-RAW", gmailQuery]]`. -/
theorem gmailQuery_empty_not_authoritative :
    buildImapSearchCriteria criteriaEmptyGmail =
      [Sexp.list [Sexp.str "SUBJECT", Sexp.str "hello"]] ∧
    buildImapSearchCriteria criteriaEmptyGmail ≠
      [Sexp.list [Sexp.str "X-GM-RAW", Sexp.str ""]] := by
  constructor
  · rfl
  · intro h
    rw [show buildImapSearchCriteria criteriaEmptyGmail =
      [Sexp.list [Sexp.str "SUBJECT", Sexp.str "hello"]] from rfl] at h
    simp at h

/-- C4 (amended): whenever `gmailQuery` is present and non-empty, the
IMAP search expression is exactly `[["X-GM-RAW", gmailQuery]]` and every
other criteria field is ignored. -/
theorem gmailQuery_nonempty_is_authoritative (c : SearchCriteria)
    (q : String) (hq : c.gmailQuery = some q) (hne : q ≠ "") :
    buildImapSearchCriteria c = [Sexp.list [Sexp.str "X-GM-RAW", Sexp.str q]] := by
  simp [buildImapSearchCriteria, hq, hne]

theorem gmailQuery_nonempty_is_authoritative_witness :
    criteriaFullGmail.gmailQuery = some "is:unread from:me" ∧
    "is:unread from:me" ≠ "" ∧
    buildImapSearchCriteria criteriaFullGmail =
      [Sexp.list [Sexp.str "X-GM-RAW", Sexp.str "is:unread from:me"]] :=
  ⟨rfl, by decide,
    gmailQuery_nonempty_is_authoritative criteriaFullGmail "is:unread from:me"
      rfl (by decide)⟩

/-! ## Sync limit boundary (claim C7) -/

/-- C7 (amended): an explicit `limit = 0` is falsy in
`options.limit || uids.length`, so the run behaves exactly as if no limit
had been passed — every found UID is processed — rather than processing
nothing. -/
theorem sync_limit_zero_behaves_as_no_limit (env : SyncEnv)
    (opts : SyncOptions) (db : EmailDb) (now : Nat)
    (h : opts.limit = some 0) :
    syncEmails env opts db now =
      syncEmails env { opts with limit := none } db now := by
  have hstep : syncStep env { opts with limit := none } = syncStep env opts := by
    funext st uid
    rfl
  simp [syncEmails, syncUidsToProcess, h, hstep]

theorem sync_limit_zero_behaves_as_no_limit_witness :
    ({ limit := some 0 } : SyncOptions).limit = some 0 ∧
    syncEmails envOneMail { limit := some 0 } {} 0 =
      syncEmails envOneMail
        { ({ limit := some 0 } : SyncOptions) with limit := none } {} 0 :=
  ⟨rfl, sync_limit_zero_behaves_as_no_limit envOneMail { limit := some 0 } {} 0 rfl⟩

/-- C7 counterexample: with `limit = 0` and one new message on the
server, the run fetches and inserts that message (`synced = 1`) instead
of returning the empty result the claim describes. -/
theorem sync_limit_zero_counterexample :
    (syncEmails envOneMail { limit := some 0 } {} 0).1 =
      { synced := 1, skipped := 0, errors := 0 } := by
  rfl

/-- C8 counterexample: with an empty update set the source returns before
preparing any UPDATE, so `updated_at` of the matching row is not touched
(the claim asserts it is set for every update set). -/
theorem updateEmailFlags_empty_update_counterexample :
    updateEmailFlags dmStoreForFlags "m1" {} = dmStoreForFlags ∧
    ∀ row ∈ (updateEmailFlags dmStoreForFlags "m1" {}).emails,
      row.updatedAt ≠ dmStoreForFlags.now := by
  decide

/-- C8 (amended): for every non-empty update set drawn from
isRead/isStarred/isImportant/labels/folder, `updateEmailFlags` overwrites
exactly the provided fields of the rows matching the message id and
touches `updated_at`, leaving every other field of those rows and every
other row entirely unchanged (an empty update set leaves the whole store,
including `updated_at`, unchanged — see the counterexample). -/
theorem updateEmailFlags_applies_exactly_provided_fields
    (s : DmStore) (mid : String) (u : FlagUpdates) (h : u.hasAny = true) :
    (updateEmailFlags s mid u).emails.length = s.emails.length ∧
    ∀ (i : Nat) (hi : i < s.emails.length)
      (hi2 : i < (updateEmailFlags s mid u).emails.length),
      ((s.emails[i].messageId ≠ mid →
        (updateEmailFlags s mid u).emails[i] = s.emails[i]) ∧
      (s.emails[i].messageId = mid →
        ((updateEmailFlags s mid u).emails[i].isRead
            = u.isRead.getD s.emails[i].isRead ∧
         (updateEmailFlags s mid u).emails[i].isStarred
            = u.isStarred.getD s.emails[i].isStarred ∧
         (updateEmailFlags s mid u).emails[i].isImportant
            = u.isImportant.getD s.emails[i].isImportant ∧
         (updateEmailFlags s mid u).emails[i].labels
            = (match u.labels with
               | some l => some l
               | none => s.emails[i].labels) ∧
         (updateEmailFlags s mid u).emails[i].folder
            = u.folder.getD s.emails[i].folder ∧
         (updateEmailFlags s mid u).emails[i].updatedAt = s.now) ∧
        ((updateEmailFlags s mid u).emails[i].id = s.emails[i].id ∧
         (updateEmailFlags s mid u).emails[i].messageId
            = s.emails[i].messageId ∧
         (updateEmailFlags s mid u).emails[i].imapUid = s.emails[i].imapUid ∧
         (updateEmailFlags s mid u).emails[i].threadId
            = s.emails[i].threadId ∧
         (updateEmailFlags s mid u).emails[i].inReplyTo
            = s.emails[i].inReplyTo ∧
         (updateEmailFlags s mid u).emails[i].emailReferences
            = s.emails[i].emailReferences ∧
         (updateEmailFlags s mid u).emails[i].dateSent
            = s.emails[i].dateSent ∧
         (updateEmailFlags s mid u).emails[i].dateReceived
            = s.emails[i].dateReceived ∧
         (updateEmailFlags s mid u).emails[i].subject
            = s.emails[i].subject ∧
         (updateEmailFlags s mid u).emails[i].fromAddress
            = s.emails[i].fromAddress ∧
         (updateEmailFlags s mid u).emails[i].fromName
            = s.emails[i].fromName ∧
         (updateEmailFlags s mid u).emails[i].toAddresses
            = s.emails[i].toAddresses ∧
         (updateEmailFlags s mid u).emails[i].ccAddresses
            = s.emails[i].ccAddresses ∧
         (updateEmailFlags s mid u).emails[i].bccAddresses
            = s.emails[i].bccAddresses ∧
         (updateEmailFlags s mid u).emails[i].replyTo = s.emails[i].replyTo ∧
         (updateEmailFlags s mid u).emails[i].bodyText
            = s.emails[i].bodyText ∧
         (updateEmailFlags s mid u).emails[i].bodyHtml
            = s.emails[i].bodyHtml ∧
         (updateEmailFlags s mid u).emails[i].snippet = s.emails[i].snippet ∧
         (updateEmailFlags s mid u).emails[i].isDraft = s.emails[i].isDraft ∧
         (updateEmailFlags s mid u).emails[i].isSent = s.emails[i].isSent ∧
         (updateEmailFlags s mid u).emails[i].isTrash = s.emails[i].isTrash ∧
         (updateEmailFlags s mid u).emails[i].isSpam = s.emails[i].isSpam ∧
         (updateEmailFlags s mid u).emails[i].sizeBytes
            = s.emails[i].sizeBytes ∧
         (updateEmailFlags s mid u).emails[i].hasAttachments
            = s.emails[i].hasAttachments ∧
         (updateEmailFlags s mid u).emails[i].attachmentCount
            = s.emails[i].attachmentCount ∧
         (updateEmailFlags s mid u).emails[i].rawHeaders
            = s.emails[i].rawHeaders))) := by
  unfold updateEmailFlags
  simp only [h, if_true]
  refine ⟨by simp, ?_⟩
  intro i hi hi2
  constructor
  · intro hne
    simp [List.getElem_map, hne]
  · intro heq
    simp [List.getElem_map, heq, applyFlagUpdates]

theorem updateEmailFlags_applies_exactly_provided_fields_witness :
    ({ isRead := some true } : FlagUpdates).hasAny = true ∧
    (updateEmailFlags dmStoreForFlags "m1" { isRead := some true }).emails.length
      = dmStoreForFlags.emails.length :=
  ⟨by decide,
    (updateEmailFlags_applies_exactly_provided_fields dmStoreForFlags "m1"
      { isRead := some true } (by decide)).1⟩

/-! ## Upsert contract (claim C5) -/

theorem upsertAttachmentPhase_emails (s : DmStore) (i : Nat) (m : String)
    (atts : List AttachmentInput) :
    (upsertAttachmentPhase s i m atts).emails = s.emails := by
  unfold upsertAttachmentPhase
  split <;> rfl

theorem upsertAttachmentPhase_nextId (s : DmStore) (i : Nat) (m : String)
    (atts : List AttachmentInput) :
    (upsertAttachmentPhase s i m atts).nextId = s.nextId := by
  unfold upsertAttachmentPhase
  split <;> rfl

theorem upsertAttachmentPhase_attachments_of_ne_nil (s : DmStore) (i : Nat)
    (m : String) (atts : List AttachmentInput) (h : atts ≠ []) :
    (upsertAttachmentPhase s i m atts).attachments =
      s.attachments.filter (fun a => a.emailId ≠ i)
        ++ atts.map (attachmentRowOf i) := by
  unfold upsertAttachmentPhase
  have hl : atts.length > 0 := List.length_pos.mpr h
  simp [hl]

theorem upsertAttachmentPhase_attachments_of_nil (s : DmStore) (i : Nat)
    (m : String) :
    (upsertAttachmentPhase s i m []).attachments = s.attachments := by
  rfl

/-- C5 counterexample: upserting an existing email with an empty
attachment list leaves its old attachment rows in place — the deletion is
guarded by `attachments.length > 0` — while the claim requires the old
rows to be removed even when the new list is empty.  (The row's own
`has_attachments` / `attachment_count` are nevertheless reset to 0,
leaving the counters inconsistent with the rows.) -/
theorem upsert_empty_list_keeps_old_attachments :
    (upsertEmail dmStoreWithAttachment recordM1v2 []).2.attachments =
      [{ emailId := 1, filename := "old.pdf" }] ∧
    dmStoreWithAttachment.attachments ≠ [] ∧
    ∀ row ∈ (upsertEmail dmStoreWithAttachment recordM1v2 []).2.emails,
      row.hasAttachments = false ∧ row.attachmentCount = 0 := by
  decide

/-- C5 (amended): `upsertEmail` returns the row's integer surrogate key —
the conflicting row's id on update, the fresh auto-increment id on
insert; on a message-id conflict it updates all mutable fields of the
stored row in place; the email write, the attachment replacement and the
FTS maintenance form one atomic step; and the attachments are fully
replaced whenever the given list is non-empty — but with an empty list
the old attachment rows are retained. -/
theorem upsertEmail_contract (s : DmStore) (email : EmailRecord)
    (atts : List AttachmentInput) :
    (∀ old,
      s.emails.find? (fun row => row.messageId = email.messageId) = some old →
      (upsertEmail s email atts).1 = old.id ∧
      (upsertEmail s email atts).2.emails =
        s.emails.map (fun row =>
          if row.messageId = email.messageId
          then upsertConflictUpdate old email atts s.now else row) ∧
      (upsertEmail s email atts).2.nextId = s.nextId) ∧
    (s.emails.find? (fun row => row.messageId = email.messageId) = none →
      (upsertEmail s email atts).1 = s.nextId ∧
      (upsertEmail s email atts).2.emails =
        s.emails ++ [upsertInsertRow email atts s.nextId s.now] ∧
      (upsertEmail s email atts).2.nextId = s.nextId + 1) ∧
    (atts ≠ [] →
      (upsertEmail s email atts).2.attachments =
        s.attachments.filter
            (fun a => a.emailId ≠ (upsertEmail s email atts).1)
          ++ atts.map (attachmentRowOf (upsertEmail s email atts).1)) ∧
    (atts = [] →
      (upsertEmail s email atts).2.attachments = s.attachments) := by
  cases hf : s.emails.find? (fun row => row.messageId = email.messageId) with
  | some old =>
      refine ⟨?_, ?_, ?_, ?_⟩
      · intro o ho
        obtain rfl : old = o := by injection ho
        refine ⟨?_, ?_, ?_⟩
        · simp [upsertEmail, hf]
        · simp [upsertEmail, hf, upsertAttachmentPhase_emails]
        · simp [upsertEmail, hf, upsertAttachmentPhase_nextId]
      · intro hnone
        simp at hnone
      · intro hne
        simp only [upsertEmail, hf]
        rw [upsertAttachmentPhase_attachments_of_ne_nil _ _ _ _ hne]
      · intro hnil
        subst hnil
        simp only [upsertEmail, hf]
        rw [upsertAttachmentPhase_attachments_of_nil]
  | none =>
      refine ⟨?_, ?_, ?_, ?_⟩
      · intro o ho
        simp at ho
      · intro _
        refine ⟨?_, ?_, ?_⟩
        · simp [upsertEmail, hf, upsertInsertRow]
        · simp [upsertEmail, hf, upsertAttachmentPhase_emails]
        · simp [upsertEmail, hf, upsertAttachmentPhase_nextId, upsertInsertRow]
      · intro hne
        simp only [upsertEmail, hf]
        rw [upsertAttachmentPhase_attachments_of_ne_nil _ _ _ _ hne]
      · intro hnil
        subst hnil
        simp only [upsertEmail, hf]
        rw [upsertAttachmentPhase_attachments_of_nil]

theorem upsertEmail_contract_witness :
    dmStoreWithAttachment.emails.find?
      (fun row => row.messageId = recordM1v2.messageId) = some emailRowM1 ∧
    ([attachmentNew] ≠ ([] : List AttachmentInput)) ∧
    (upsertEmail dmStoreWithAttachment recordM1v2 [attachmentNew]).1 =
      emailRowM1.id ∧
    (upsertEmail dmStoreWithAttachment recordM1v2 [attachmentNew]).2.attachments =
      dmStoreWithAttachment.attachments.filter
          (fun a => a.emailId ≠
            (upsertEmail dmStoreWithAttachment recordM1v2 [attachmentNew]).1)
        ++ [attachmentNew].map (attachmentRowOf
            (upsertEmail dmStoreWithAttachment recordM1v2 [attachmentNew]).1) :=
  ⟨rfl, by decide,
    ((upsertEmail_contract dmStoreWithAttachment recordM1v2
      [attachmentNew]).1 emailRowM1 rfl).1,
    (upsertEmail_contract dmStoreWithAttachment recordM1v2
      [attachmentNew]).2.2.1 (by decide)⟩

/-! ## Registry active set (claim C6) -/

theorem loadAllStep_of_inactive (reg : List (String × ListenerConfig))
    (f : ListenerFile) (h : activeConfig? f = none) :
    loadAllStep reg f = reg := by
  unfold loadAllStep loadListener
  unfold activeConfig? at h
  by_cases hn : isListenerFileName f.name
  · simp only [hn, if_true] at h ⊢
    cases hex : f.exports with
    | none => rfl
    | some ex =>
        simp only [hex] at h ⊢
        cases hc : ex.config with
        | none => rfl
        | some cfg =>
            simp only [hc] at h ⊢
            cases hh : ex.hasHandler <;> cases he : cfg.enabled <;> simp_all
  · simp [hn]

theorem loadAllStep_of_active (reg : List (String × ListenerConfig))
    (f : ListenerFile) (cfg : ListenerConfig)
    (h : activeConfig? f = some cfg) :
    loadAllStep reg f = mapSet reg cfg.id cfg := by
  unfold loadAllStep loadListener
  unfold activeConfig? at h
  by_cases hn : isListenerFileName f.name
  · simp only [hn, if_true] at h ⊢
    cases hex : f.exports with
    | none => rw [hex] at h; simp at h
    | some ex =>
        rw [hex] at h
        simp only [hex] at h ⊢
        cases hc : ex.config with
        | none => rw [hc] at h; simp at h
        | some cfg2 =>
            rw [hc] at h
            simp only [hc] at h ⊢
            cases hh : ex.hasHandler <;> cases he : cfg2.enabled <;> simp_all
  · simp [hn] at h

theorem mapSet_of_fresh_key (m : List (String × ListenerConfig)) (k : String)
    (v : ListenerConfig) (h : k ∉ m.map Prod.fst) :
    mapSet m k v = m ++ [(k, v)] := by
  unfold mapSet
  have hany : m.any (fun p => decide (p.1 = k)) = false := by
    rw [List.any_eq_false]
    intro p hp
    simp only [decide_eq_true_eq]
    intro hk
    exact h (List.mem_map.mpr ⟨p, hp, hk⟩)
  simp [hany]

theorem loadAll_go (files : List ListenerFile) :
    ∀ reg : List (String × ListenerConfig),
      (reg.map Prod.fst
        ++ (files.filterMap activeConfig?).map (fun c => c.id)).Nodup →
      files.foldl loadAllStep reg =
        reg ++ (files.filterMap activeConfig?).map (fun c => (c.id, c)) := by
  induction files with
  | nil => intro reg _; simp
  | cons f fs ih =>
      intro reg hnd
      rw [List.foldl_cons]
      cases hf : activeConfig? f with
      | none =>
          rw [loadAllStep_of_inactive reg f hf]
          rw [List.filterMap_cons_none hf] at hnd ⊢
          exact ih reg hnd
      | some cfg =>
          rw [loadAllStep_of_active reg f cfg hf]
          rw [List.filterMap_cons_some hf] at hnd ⊢
          simp only [List.map_cons] at hnd
          have hrearr : reg.map Prod.fst
              ++ cfg.id :: (fs.filterMap activeConfig?).map (fun c => c.id)
              = (reg.map Prod.fst ++ [cfg.id])
                ++ (fs.filterMap activeConfig?).map (fun c => c.id) := by
            rw [List.append_cons]
          have hk : cfg.id ∉ reg.map Prod.fst := by
            intro hmem
            rcases List.nodup_append.mp hnd with ⟨_, _, hdisj⟩
            exact hdisj hmem (List.mem_cons_self _ _)
          rw [mapSet_of_fresh_key reg cfg.id cfg hk]
          have hnd2 : ((reg ++ [(cfg.id, cfg)]).map Prod.fst
              ++ (fs.filterMap activeConfig?).map (fun c => c.id)).Nodup := by
            rw [List.map_append]
            rw [hrearr] at hnd
            simpa using hnd
          rw [ih (reg ++ [(cfg.id, cfg)]) hnd2]
          simp

/-- C6 (amended): after a `loadAllListeners` run over a directory whose
qualifying files (`.ts` name not starting with `.` or `_`, import
succeeded, `config` and `handler` exported, `enabled` true) declare
pairwise-distinct config ids, the active set is exactly one module per
qualifying file, keyed and ordered by those files; non-qualifying files
contribute nothing, and a single file's load failure does not prevent the
others from registering.  (When two qualifying files share a config id
they collapse to one entry — see the counterexample.) -/
theorem loadAllListeners_active_set (files : List ListenerFile)
    (h : ((files.filterMap activeConfig?).map (fun c => c.id)).Nodup) :
    loadAllListeners files =
      (files.filterMap activeConfig?).map (fun c => (c.id, c)) := by
  have hgo := loadAll_go files [] (by simpa using h)
  simpa [loadAllListeners] using hgo

theorem loadAllListeners_active_set_witness :
    ((listenerDirMixed.filterMap activeConfig?).map (fun c => c.id)).Nodup ∧
    loadAllListeners listenerDirMixed =
      (listenerDirMixed.filterMap activeConfig?).map (fun c => (c.id, c)) :=
  ⟨by decide, loadAllListeners_active_set listenerDirMixed (by decide)⟩

/-- C6 counterexample: the registry is keyed by `config.id`, so two
qualifying files sharing an id collapse to a single entry — the active
set does not contain one module per qualifying file. -/
theorem loadAllListeners_duplicate_id_counterexample :
    (loadAllListeners listenerDirDupIds).length = 1 ∧
    (listenerDirDupIds.filterMap activeConfig?).length = 2 := by
  decide

/-! ## Dedup and idempotence of the sync run (claim C2) -/

theorem insertEmail_ok_of_not_contains (db : EmailDb) (e : SyncRecord)
    (r : List RecipientInput) (a : List AttachmentInput) (now : Nat)
    (h : db.containsMessageId e.messageId = false) :
    ∃ db1, insertEmail db e r a now = .ok (db.nextId, db1) := by
  unfold insertEmail
  rw [h]
  simp

theorem insertEmail_contains_of_ok (db : EmailDb) (e : SyncRecord)
    (r : List RecipientInput) (a : List AttachmentInput) (now i : Nat)
    (db1 : EmailDb) (h : insertEmail db e r a now = .ok (i, db1)) :
    ∀ mid, (db.containsMessageId mid = true ∨ mid = e.messageId) →
      db1.containsMessageId mid = true := by
  unfold insertEmail at h
  by_cases hc : db.containsMessageId e.messageId
  · rw [hc] at h
    simp at h
  · rw [Bool.not_eq_true] at hc
    rw [hc] at h
    simp only [Bool.false_eq_true, if_false, Except.ok.injEq, Prod.mk.injEq] at h
    obtain ⟨h1, h2⟩ := h
    subst h2
    intro mid hor
    unfold EmailDb.containsMessageId at hor ⊢
    simp only [List.any_append, List.any_cons, List.any_nil, Bool.or_false,
      Bool.or_eq_true, decide_eq_true_eq]
    rcases hor with hin | rfl
    · left; exact hin
    · right; rfl

theorem syncStep_contains_mono (env : SyncEnv) (opts : SyncOptions)
    (st : SyncRunState) (uid : Nat) (mid : String)
    (h : st.db.containsMessageId mid = true) :
    (syncStep env opts st uid).db.containsMessageId mid = true := by
  unfold syncStep
  cases hf : env.fetch uid with
  | none => exact h
  | some raw =>
      cases hm : raw.messageId with
      | none =>
          simp only
          split
          · exact h
          · split
            · exact h
            · split
              · next i db1 heq =>
                  exact insertEmail_contains_of_ok _ _ _ _ _ _ _ heq mid (Or.inl h)
              · exact h
      | some m =>
          simp only
          split
          · exact h
          · split
            · exact h
            · split
              · next i db1 heq =>
                  exact insertEmail_contains_of_ok _ _ _ _ _ _ _ heq mid (Or.inl h)
              · exact h

theorem syncFold_contains_mono (env : SyncEnv) (opts : SyncOptions)
    (l : List Nat) :
    ∀ (st : SyncRunState) (mid : String),
      st.db.containsMessageId mid = true →
      ((l.foldl (syncStep env opts) st).db.containsMessageId mid = true) := by
  induction l with
  | nil => intro st mid h; exact h
  | cons u rest ih =>
      intro st mid h
      rw [List.foldl_cons]
      exact ih _ mid (syncStep_contains_mono env opts st u mid h)

theorem uidQuiet_mono (env : SyncEnv) (opts : SyncOptions) (db db1 : EmailDb)
    (uid : Nat)
    (hmono : ∀ m, db.containsMessageId m = true →
      db1.containsMessageId m = true)
    (h : uidQuiet env opts db uid) : uidQuiet env opts db1 uid := by
  intro raw hf
  obtain ⟨m, hm, hor⟩ := h raw hf
  exact ⟨m, hm, hor.imp (hmono m) id⟩

theorem syncStep_of_quiet (env : SyncEnv) (opts : SyncOptions)
    (st : SyncRunState) (uid : Nat) (h : uidQuiet env opts st.db uid) :
    (syncStep env opts st uid).db = st.db ∧
    (syncStep env opts st uid).stats.synced = st.stats.synced ∧
    (syncStep env opts st uid).events = st.events := by
  unfold syncStep
  cases hf : env.fetch uid with
  | none => exact ⟨rfl, rfl, rfl⟩
  | some raw =>
      obtain ⟨m, hm, hor⟩ := h raw hf
      simp only [hm]
      by_cases hc : st.db.containsMessageId m = true
      · simp [hc]
      · rw [Bool.not_eq_true] at hc
        have hfil : syncFilteredOut opts raw = true := by
          rcases hor with hin | hfil
          · rw [hc] at hin; cases hin
          · exact hfil
        simp [hc, hfil]

theorem syncFold_of_all_quiet (env : SyncEnv) (opts : SyncOptions)
    (l : List Nat) :
    ∀ st : SyncRunState,
      (∀ uid ∈ l, uidQuiet env opts st.db uid) →
      ((l.foldl (syncStep env opts) st).db = st.db ∧
       (l.foldl (syncStep env opts) st).stats.synced = st.stats.synced ∧
       (l.foldl (syncStep env opts) st).events = st.events) := by
  induction l with
  | nil => intro st _; exact ⟨rfl, rfl, rfl⟩
  | cons u rest ih =>
      intro st hq
      rw [List.foldl_cons]
      obtain ⟨hdb, hsy, hev⟩ :=
        syncStep_of_quiet env opts st u (hq u (List.mem_cons_self _ _))
      have hq2 : ∀ uid ∈ rest,
          uidQuiet env opts (syncStep env opts st u).db uid := by
        intro uid hmem
        rw [hdb]
        exact hq uid (List.mem_cons_of_mem _ hmem)
      obtain ⟨h1, h2, h3⟩ := ih (syncStep env opts st u) hq2
      exact ⟨h1.trans hdb, h2.trans hsy, h3.trans hev⟩

theorem buildSyncRecord_messageId (env : SyncEnv) (opts : SyncOptions)
    (uid : Nat) (raw : RawEmail) (now : Nat) (m : String)
    (hm : raw.messageId = some m) :
    (buildSyncRecord env opts uid raw now).messageId = m := by
  simp [buildSyncRecord, hm]

theorem syncStep_self_quiet (env : SyncEnv) (opts : SyncOptions)
    (st : SyncRunState) (uid : Nat)
    (hmid : ∀ raw, env.fetch uid = some raw → raw.messageId.isSome) :
    uidQuiet env opts (syncStep env opts st uid).db uid := by
  intro raw hf
  obtain ⟨m, hm⟩ := Option.isSome_iff_exists.mp (hmid raw hf)
  refine ⟨m, hm, ?_⟩
  by_cases hfil : syncFilteredOut opts raw = true
  · exact Or.inr hfil
  · left
    by_cases hc : st.db.containsMessageId m = true
    · exact syncStep_contains_mono env opts st uid m hc
    · rw [Bool.not_eq_true] at hc hfil
      have hrec := buildSyncRecord_messageId env opts uid raw st.now m hm
      obtain ⟨db1, hins⟩ := insertEmail_ok_of_not_contains st.db
        (buildSyncRecord env opts uid raw st.now) (extractRecipients raw)
        (extractAttachments raw) st.now (by rw [hrec]; exact hc)
      unfold syncStep
      simp only [hf, hm, hc, hfil, Bool.false_eq_true, if_false, hins]
      exact insertEmail_contains_of_ok st.db _ _ _ st.now _ db1 hins m
        (Or.inr hrec.symm)

theorem syncFold_self_quiet (env : SyncEnv) (opts : SyncOptions)
    (l : List Nat) :
    ∀ st : SyncRunState,
      (∀ uid ∈ l, ∀ raw, env.fetch uid = some raw → raw.messageId.isSome) →
      ∀ uid ∈ l, uidQuiet env opts ((l.foldl (syncStep env opts) st).db) uid := by
  induction l with
  | nil => intro st _ uid hmem; cases hmem
  | cons u rest ih =>
      intro st hmids uid hmem
      rw [List.foldl_cons]
      rcases List.mem_cons.mp hmem with rfl | hmem2
      · have h1 := syncStep_self_quiet env opts st uid
          (hmids uid (List.mem_cons_self _ _))
        exact uidQuiet_mono env opts _ _ uid
          (fun m hm => syncFold_contains_mono env opts rest _ m hm) h1
      · exact ih (syncStep env opts st u)
          (fun v hv raw hf => hmids v (List.mem_cons_of_mem _ hv) raw hf)
          uid hmem2

/-- C2 (amended): whenever the message fetched for a UID carries a
message-id that is already in the store, the sync loop only increments
`skipped` — the database, the counters other than `skipped`, and the
dispatched events are untouched.  Consequently, running the identical
sync twice yields `synced = 0` on the second run, an unchanged store and
no `email_received` events — provided every fetched message carries a
Message-Id (a message without one is re-inserted under a fresh synthetic
`` `${uid}-${Date.now()}` `` id each run; see the counterexample). -/
theorem sync_dedup_and_idempotence :
    (∀ (env : SyncEnv) (opts : SyncOptions) (st : SyncRunState) (uid : Nat)
        (raw : RawEmail) (m : String),
      env.fetch uid = some raw → raw.messageId = some m →
      st.db.containsMessageId m = true →
      syncStep env opts st uid =
        { st with stats := { st.stats with skipped := st.stats.skipped + 1 } }) ∧
    (∀ (env : SyncEnv) (opts : SyncOptions) (db : EmailDb) (now1 now2 : Nat),
      (∀ uid ∈ syncUidsToProcess env opts, ∀ raw,
        env.fetch uid = some raw → raw.messageId.isSome) →
      (syncEmails env opts (syncEmails env opts db now1).2.1 now2).1.synced = 0 ∧
      (syncEmails env opts (syncEmails env opts db now1).2.1 now2).2.1 =
        (syncEmails env opts db now1).2.1 ∧
      (syncEmails env opts (syncEmails env opts db now1).2.1 now2).2.2 = []) := by
  constructor
  · intro env opts st uid raw m hf hm hc
    unfold syncStep
    simp only [hf, hm, hc, if_true]
  · intro env opts db now1 now2 hmids
    have hq1 := syncFold_self_quiet env opts (syncUidsToProcess env opts)
      { db := db, stats := {}, events := [], now := now1 } hmids
    have h2 := syncFold_of_all_quiet env opts (syncUidsToProcess env opts)
      { db := (syncEmails env opts db now1).2.1, stats := {}, events := []
        now := now2 }
      (fun uid hmem => hq1 uid hmem)
    exact ⟨h2.2.1, h2.1, h2.2.2⟩

/-- C2 counterexample: a fetched message without a Message-Id is stored
under the synthetic `` `${uid}-${Date.now()}` `` id, which differs between
runs, so the identical second sync at a later tick re-inserts the same
message: the second run reports `synced = 1` and the store is changed. -/
theorem sync_rerun_duplicates_without_message_id :
    (syncEmails envNoMessageId {}
      (syncEmails envNoMessageId {} {} 0).2.1 1).1.synced = 1 ∧
    (syncEmails envNoMessageId {}
        (syncEmails envNoMessageId {} {} 0).2.1 1).2.1 ≠
      (syncEmails envNoMessageId {} {} 0).2.1 := by
  decide

theorem sync_dedup_and_idempotence_witness :
    (syncEmails envTwoMails {}
      (syncEmails envTwoMails {} {} 0).2.1 1).1.synced = 0 :=
  (sync_dedup_and_idempotence.2 envTwoMails {} {} 0 1 (by
    intro uid hmem raw hf
    simp only [envTwoMails] at hf
    split at hf
    · injection hf with h
      subst h
      rfl
    · injection hf with h
      subst h
      rfl)).1

/-! ## Snippet length (claim C9) -/

theorem jsTruthyStr_bound (a : Option String)
    (ha : ∀ s, a = some s → s.length ≤ 200) :
    ((jsTruthyStr a).getD "").length ≤ 200 := by
  unfold jsTruthyStr
  cases a with
  | none => simp
  | some s =>
      by_cases hs : s = ""
      · simp [hs]
      · simp only [hs, if_false, Option.getD_some]
        exact ha s rfl

theorem jsStrOr_bound (a b : Option String)
    (ha : ∀ s, a = some s → s.length ≤ 200)
    (hb : ∀ s, b = some s → s.length ≤ 200) :
    ((jsStrOr a b).getD "").length ≤ 200 := by
  unfold jsStrOr
  cases hta : jsTruthyStr a with
  | none => exact jsTruthyStr_bound b hb
  | some s =>
      have h1 := jsTruthyStr_bound a ha
      rw [hta] at h1
      simpa using h1

theorem mapSubstring_bound (t : Option String) :
    ∀ s, t.map (fun x => jsSubstring x 200) = some s → s.length ≤ 200 := by
  intro s h
  cases t with
  | none => simp at h
  | some x =>
      have h2 : jsSubstring x 200 = s := by simpa using h
      rw [← h2]
      exact jsSubstring_length_le x 200

theorem insertEmail_snippet_bounded (db : EmailDb) (e : SyncRecord)
    (r : List RecipientInput) (a : List AttachmentInput) (now i : Nat)
    (db1 : EmailDb) (h : insertEmail db e r a now = .ok (i, db1))
    (hrec : ∀ s, e.snippet = some s → s.length ≤ 200)
    (hdb : ∀ row ∈ db.emails, (row.snippet.getD "").length ≤ 200) :
    ∀ row ∈ db1.emails, (row.snippet.getD "").length ≤ 200 := by
  unfold insertEmail at h
  by_cases hc : db.containsMessageId e.messageId
  · rw [hc] at h
    simp at h
  · rw [Bool.not_eq_true] at hc
    rw [hc] at h
    simp only [Bool.false_eq_true, if_false, Except.ok.injEq, Prod.mk.injEq] at h
    obtain ⟨-, h2⟩ := h
    subst h2
    intro row hrow
    rcases List.mem_append.mp hrow with hold | hnew
    · exact hdb row hold
    · rcases List.mem_singleton.mp hnew with rfl
      exact jsStrOr_bound _ _ hrec (mapSubstring_bound e.bodyText)

theorem syncStep_snippet_bounded (env : SyncEnv) (opts : SyncOptions)
    (st : SyncRunState) (uid : Nat)
    (h : ∀ row ∈ st.db.emails, (row.snippet.getD "").length ≤ 200) :
    ∀ row ∈ (syncStep env opts st uid).db.emails,
      (row.snippet.getD "").length ≤ 200 := by
  unfold syncStep
  cases hf : env.fetch uid with
  | none => exact h
  | some raw =>
      cases hm : raw.messageId with
      | none =>
          simp only
          split
          · exact h
          · split
            · exact h
            · split
              · next i db1 heq =>
                  exact insertEmail_snippet_bounded _ _ _ _ _ _ _ heq
                    (mapSubstring_bound raw.text) h
              · exact h
      | some m =>
          simp only
          split
          · exact h
          · split
            · exact h
            · split
              · next i db1 heq =>
                  exact insertEmail_snippet_bounded _ _ _ _ _ _ _ heq
                    (mapSubstring_bound raw.text) h
              · exact h

theorem syncFold_snippet_bounded (env : SyncEnv) (opts : SyncOptions)
    (l : List Nat) :
    ∀ st : SyncRunState,
      (∀ row ∈ st.db.emails, (row.snippet.getD "").length ≤ 200) →
      ∀ row ∈ ((l.foldl (syncStep env opts) st)).db.emails,
        (row.snippet.getD "").length ≤ 200 := by
  induction l with
  | nil => intro st h; exact h
  | cons u rest ih =>
      intro st h
      rw [List.foldl_cons]
      exact ih _ (syncStep_snippet_bounded env opts st u h)

theorem upsert_rows_snippet_bounded (s : DmStore) (email : EmailRecord)
    (atts : List AttachmentInput)
    (hrec : ∀ t, email.snippet = some t → t.length ≤ 200)
    (h : ∀ row ∈ s.emails, (row.snippet.getD "").length ≤ 200) :
    ∀ row ∈ (upsertEmail s email atts).2.emails,
      (row.snippet.getD "").length ≤ 200 := by
  intro row hrow
  unfold upsertEmail at hrow
  cases hfind : s.emails.find? (fun r => r.messageId = email.messageId) with
  | some old =>
      rw [hfind] at hrow
      simp only [upsertAttachmentPhase_emails] at hrow
      rcases List.mem_map.mp hrow with ⟨r0, hr0, hmap⟩
      by_cases hb : r0.messageId = email.messageId
      · rw [if_pos hb] at hmap
        rw [← hmap]
        exact jsStrOr_bound _ _ hrec (mapSubstring_bound email.bodyText)
      · rw [if_neg hb] at hmap
        rw [← hmap]
        exact h r0 hr0
  | none =>
      rw [hfind] at hrow
      simp only [upsertAttachmentPhase_emails] at hrow
      rcases List.mem_append.mp hrow with hold | hnew
      · exact h row hold
      · rcases List.mem_singleton.mp hnew with rfl
        exact jsStrOr_bound _ _ hrec (mapSubstring_bound email.bodyText)

/-- C9 (amended): on the sync path the stored snippet is always at most
200 characters (`rawEmail.text?.substring(0, 200)`, with the insert
statement's own 200-character fallback); the upsert path preserves the
bound whenever the caller's record carries a snippet of at most 200
characters — which all record producers in the repository do — but a
longer caller-supplied snippet is stored verbatim (see the
counterexample). -/
theorem snippet_bounded_on_write_paths :
    (∀ (env : SyncEnv) (opts : SyncOptions) (db : EmailDb) (now : Nat),
      (∀ row ∈ db.emails, (row.snippet.getD "").length ≤ 200) →
      ∀ row ∈ (syncEmails env opts db now).2.1.emails,
        (row.snippet.getD "").length ≤ 200) ∧
    (∀ (s : DmStore) (email : EmailRecord) (atts : List AttachmentInput),
      (∀ t, email.snippet = some t → t.length ≤ 200) →
      (∀ row ∈ s.emails, (row.snippet.getD "").length ≤ 200) →
      ∀ row ∈ (upsertEmail s email atts).2.emails,
        (row.snippet.getD "").length ≤ 200) := by
  constructor
  · intro env opts db now h
    exact syncFold_snippet_bounded env opts (syncUidsToProcess env opts)
      { db := db, stats := {}, events := [], now := now } h
  · exact upsert_rows_snippet_bounded

theorem snippet_bounded_on_write_paths_witness :
    (((syncEmails envOneMail {} {} 0).2.1.emails.headD
        { id := 0, messageId := "" }).snippet.getD "").length ≤ 200 :=
  snippet_bounded_on_write_paths.1 envOneMail {} {} 0
    (by intro row hrow; exact absurd hrow (List.not_mem_nil row))
    _ (by decide)

set_option maxRecDepth 8000 in
/-- C9 counterexample: `upsertEmail` stores a caller-supplied snippet
verbatim (`email.snippet || email.bodyText?.substring(0, 200) || null`
only truncates the fallback), so a 201-character snippet ends up in the
store, violating the unconditional 200-character bound. -/
theorem upsert_stores_overlong_snippet :
    ((upsertEmail {} { messageId := "m1", snippet := some longSnippet }
        []).2.emails.map (fun row => (row.snippet.getD "").length)) = [201] := by
  decide
